import Mathlib

/-!
# Verification of the p2pool-go wire codec (src/wire/readwrite.go)

Shallow embedding of the binary wire codec of the p2pool-go repository.
A byte stream is a `List Nat` of byte values (each < 256 where it matters);
a reader is a function `List Nat → Except Err (α × List Nat)` returning the
decoded value and the unconsumed remainder of the stream, mirroring the
sequential consumption of an `io.Reader` cursor.  Go runtime panics are
modelled by the distinguished error `Err.panicked`.
-/

namespace P2PoolWire

/-- Error outcomes of the decoders.  The Go source signals errors through
`fmt.Errorf` strings and passed-through I/O errors; we classify them:
`truncated` covers every short-read outcome (the count-check errors such as
"Couldn't read 32 bytes for chainhash" as well as an `io.EOF` or
`io.ErrUnexpectedEOF` surfaced by `binary.Read`), the three `nonCanonical`
constructors are the three "Varint not canonically packed" errors of
`ReadVarInt`, and `panicked` marks a Go runtime panic (not a returned
error). -/
inductive Err where
  | truncated
  | nonCanonicalU16
  | nonCanonicalU32
  | nonCanonicalU64
  | panicked
  deriving Repr, DecidableEq

/-- Value of a little-endian byte sequence. -/
def fromBytesLE : List Nat → Nat
  | [] => 0
  | b :: t => b + 256 * fromBytesLE t

/-- The `w`-byte little-endian encoding of `v % 256^w`; models what
`binary.Write(w, binary.LittleEndian, uintW(val))` emits. -/
def toBytesLE : Nat → Nat → List Nat
  | 0, _ => []
  | w + 1, v => v % 256 :: toBytesLE w (v / 256)

/-- Value of a big-endian byte sequence; models `big.Int.SetBytes`. -/
def fromBytesBE (l : List Nat) : Nat := l.foldl (fun a b => a * 256 + b) 0

/-- Fuel-driven helper for `toBytesBE`; with fuel ≥ v the fuel never runs
out, since the value strictly shrinks at each division by 256. -/
def toBytesBEFuel : Nat → Nat → List Nat
  | 0, _ => []
  | fuel + 1, v => if v = 0 then [] else toBytesBEFuel fuel (v / 256) ++ [v % 256]

/-- Minimal big-endian byte representation of `v` (empty for 0); models
`big.Int.Bytes`. -/
def toBytesBE (v : Nat) : List Nat := toBytesBEFuel v v

theorem toBytesBEFuel_congr :
    ∀ f1 : Nat, ∀ f2 v : Nat, v ≤ f1 → v ≤ f2 →
      toBytesBEFuel f1 v = toBytesBEFuel f2 v := by
  intro f1
  induction f1 with
  | zero =>
    intro f2 v h1 _
    interval_cases v
    cases f2 <;> simp [toBytesBEFuel]
  | succ f ih =>
    intro f2 v h1 h2
    by_cases hv : v = 0
    · subst hv
      cases f2 <;> simp [toBytesBEFuel]
    · have hvpos : 0 < v := Nat.pos_of_ne_zero hv
      obtain ⟨f2', rfl⟩ : ∃ k, f2 = k + 1 := ⟨f2 - 1, by omega⟩
      have hdiv : v / 256 < v := Nat.div_lt_self hvpos (by norm_num)
      simp only [toBytesBEFuel, if_neg hv]
      rw [ih f2' (v / 256) (by omega) (by omega)]

/-- Unfolding law of `toBytesBE`, mirroring the recursion of
`big.Int.Bytes`: strip digits base 256 from the low end. -/
theorem toBytesBE_eq (v : Nat) :
    toBytesBE v = if v = 0 then [] else toBytesBE (v / 256) ++ [v % 256] := by
  by_cases hv : v = 0
  · subst hv; simp [toBytesBE, toBytesBEFuel]
  · have hvpos : 0 < v := Nat.pos_of_ne_zero hv
    obtain ⟨k, rfl⟩ : ∃ k, v = k + 1 := ⟨v - 1, by omega⟩
    simp only [toBytesBE, toBytesBEFuel, if_neg hv]
    rw [toBytesBEFuel_congr k ((k + 1) / 256) ((k + 1) / 256)
      (by omega) le_rfl]

/-- Models the recurring Go idiom
`b := make([]byte, n); i, err := r.Read(b)` followed by the source's own
check that `i` equals `n`: with a sequential byte-stream source the single
read yields `min n len(stream)` bytes, so the check fails exactly when the
stream holds fewer than `n` bytes.  Every such failure (whether the Go site
reports its count-check error or a passed-through end-of-input) is the
`truncated` class. -/
def readExact (n : Nat) (s : List Nat) : Except Err (List Nat × List Nat) :=
  if n ≤ s.length then .ok (s.take n, s.drop n) else .error .truncated

/-- Models `binary.Read(r, binary.LittleEndian, &x)` for an unsigned
integer type of width `w` bytes: `io.ReadFull` semantics, failing (without
touching `x`) when fewer than `w` bytes remain. -/
def readLEInt (w : Nat) (s : List Nat) : Except Err (Nat × List Nat) :=
  if w ≤ s.length then .ok (fromBytesLE (s.take w), s.drop w) else .error .truncated

/-- Models `binary.Read` of an `int8` (the stale-info field): one byte,
reinterpreted as a signed value. -/
def readInt8 (s : List Nat) : Except Err (Int × List Nat) :=
  match s with
  | [] => .error .truncated
  | b :: t => .ok (if b < 128 then (b : Int) else (b : Int) - 256, t)

/-- `ReadVarInt` from src/wire/readwrite.go lines 36–90.  One discriminant
byte; tiers 0xfd/0xfe/0xff carry a little-endian u16/u32/u64 payload with a
minimal-encoding check.  Faithful detail: in the 0xfd and 0xfe branches the
source never assigns the error returned by `binary.Read` (the `err` it
tests is the stale, nil error of the discriminant read), so on a short
payload read the payload variable keeps its zero value and the function
falls through to the canonicality check, reporting a non-canonical error;
only the 0xff branch captures and returns the read error. -/
def ReadVarInt (s : List Nat) : Except Err (Nat × List Nat) :=
  match s with
  | [] => .error .truncated
  | d :: rest =>
    if d = 0xff then
      if 8 ≤ rest.length then
        let rv := fromBytesLE (rest.take 8)
        if rv < 0x100000000 then .error .nonCanonicalU64
        else .ok (rv, rest.drop 8)
      else .error .truncated
    else if d = 0xfe then
      let sv := if 4 ≤ rest.length then fromBytesLE (rest.take 4) else 0
      if sv < 0x10000 then .error .nonCanonicalU32
      else .ok (sv, rest.drop 4)
    else if d = 0xfd then
      let sv := if 2 ≤ rest.length then fromBytesLE (rest.take 2) else 0
      if sv < 0xfd then .error .nonCanonicalU16
      else .ok (sv, rest.drop 2)
    else .ok (d, rest)

/-- `WriteVarInt` from src/wire/readwrite.go lines 126–152: minimal-tier
selection, little-endian payload. -/
def WriteVarInt (v : Nat) : List Nat :=
  if v < 0xfd then [v % 256]
  else if v ≤ 0xffff then 0xfd :: toBytesLE 2 v
  else if v ≤ 0xffffffff then 0xfe :: toBytesLE 4 v
  else 0xff :: toBytesLE 8 v

/-- `ReadVarString` from lines 22–34: a VarInt length prefix, then exactly
that many raw bytes (the count check `rl != int(len)` is the short-read
guard); the Go `string` holds the raw bytes, modelled as the byte list. -/
def ReadVarString (s : List Nat) : Except Err (List Nat × List Nat) :=
  match ReadVarInt s with
  | .error e => .error e
  | .ok (len, s1) => readExact len s1

/-- A 32-byte digest; `chainhash.Hash` is an opaque fixed 32-byte array
(external collaborator, consumed only through its data shape). -/
abbrev Hash := List Nat

/-- Modelled from the `init` at lines 203–205: `nullHash` is
`chainhash.NewHashFromStr` applied to the 64-character all-zero hex string;
hex-decoding gives 32 zero bytes and the byte-order reversal performed by
`NewHashFromStr` leaves the all-zero digest unchanged. -/
def nullHash : Hash := List.replicate 32 0

/-- `ReadChainHash` from lines 191–201: read 32 bytes (count-checked), then
`chainhash.NewHash`, which only fails when handed a slice whose length is
not 32 — impossible here, so it just copies the bytes. -/
def ReadChainHash (s : List Nat) : Except Err (Hash × List Nat) :=
  readExact 32 s

/-- `WriteChainHash` from lines 180–189: a `nil` hash reference is replaced
by `nullHash`; the 32 bytes of the digest are written verbatim (the write
count check cannot fail against an in-memory sink). -/
def WriteChainHash (h : Option Hash) : List Nat :=
  match h with
  | none => nullHash
  | some b => b

/-- `ReadIPAddr` from lines 92–102: 16 raw bytes, count-checked. -/
def ReadIPAddr (s : List Nat) : Except Err (List Nat × List Nat) :=
  readExact 16 s

/-- Models the zero-stripping loop of `ReadBigInt256` (lines 174–176):
`for b[0] == 0x00 { b = b[1:] }`.  Evaluating `b[0]` on the empty slice is
a Go runtime panic (index out of range), reached exactly when every byte of
`b` is zero; `none` marks that panic. -/
def stripLeadingZeros : List Nat → Option (List Nat)
  | [] => none
  | b :: t => if b = 0 then stripLeadingZeros t else some (b :: t)

/-- `ReadBigInt256` from lines 165–178: read 32 bytes (count-checked),
strip leading zero bytes with the loop above, then `big.Int.SetBytes`. -/
def ReadBigInt256 (s : List Nat) : Except Err (Nat × List Nat) :=
  match readExact 32 s with
  | .error e => .error e
  | .ok (b, rest) =>
    match stripLeadingZeros b with
    | none => .error .panicked
    | some b' => .ok (fromBytesBE b', rest)

/-- `WriteBigInt256` from lines 154–163: `b` is 32 zero bytes with the
minimal big-endian bytes of the value appended; the last 32 bytes of `b`
are written. -/
def WriteBigInt256 (v : Nat) : List Nat :=
  let b := List.replicate 32 0 ++ toBytesBE v
  b.drop (b.length - 32)

/-- `WriteChainHashList` from lines 257–267: VarInt count, then each hash
in order (write errors of the elements are discarded by the source; against
an in-memory sink none occur). -/
def WriteChainHashList (l : List (Option Hash)) : List Nat :=
  WriteVarInt l.length ++ (l.map WriteChainHash).flatten

/-- The element loop of `ReadChainHashList` (lines 278–285): `count`
sequential `ReadChainHash` calls, aborting on the first error. -/
def readChainHashes : Nat → List Nat → Except Err (List Hash × List Nat)
  | 0, s => .ok ([], s)
  | n + 1, s =>
    match ReadChainHash s with
    | .error e => .error e
    | .ok (h, s1) =>
      match readChainHashes n s1 with
      | .error e => .error e
      | .ok (hs, s2) => .ok (h :: hs, s2)

/-- `ReadChainHashList` from lines 269–287: VarInt count, then that many
hashes.  On error the Go function returns the partial list alongside the
error; callers inspect the error first, so the `Except` model keeps only
the error. -/
def ReadChainHashList (s : List Nat) : Except Err (List Hash × List Nat) :=
  match ReadVarInt s with
  | .error e => .error e
  | .ok (count, s1) => readChainHashes count s1

/-- `SegwitData`; field shapes as used by `ReadSegwitData`. -/
structure SegwitData where
  TXIDMerkleLink : List Hash
  WTXIDMerkleRoot : Hash
  deriving Repr, DecidableEq

/-- `ReadSegwitData` from lines 289–304: a chain-hash list, then one
chain hash. -/
def ReadSegwitData (s : List Nat) : Except Err (SegwitData × List Nat) :=
  match ReadChainHashList s with
  | .error e => .error e
  | .ok (link, s1) =>
    match ReadChainHash s1 with
    | .error e => .error e
    | .ok (root, s2) => .ok ({ TXIDMerkleLink := link, WTXIDMerkleRoot := root }, s2)

/-- `ShareData`.  Modelled from the spec: the struct declaration itself is
outside the provided source, so the integer field widths (Nonce uint32,
PubKeyHashVersion uint8, Subsidy uint64, Donation uint16, StaleInfo int8)
are taken from spec §3; the decode order and the 20-byte PubKeyHash are
from `ReadShareData` in the source. -/
structure ShareData where
  PreviousShareHash : Hash
  CoinBase : List Nat
  Nonce : Nat
  PubKeyHash : List Nat
  PubKeyHashVersion : Nat
  Subsidy : Nat
  Donation : Nat
  StaleInfo : Int
  DesiredVersion : Nat
  deriving Repr, DecidableEq

/-- `ReadShareData` from lines 306–362: previous share hash, coinbase
VarString, nonce (LE u32), 20-byte pubKeyHash (count-checked), version
byte, subsidy (LE u64), donation (LE u16), staleInfo (int8), desired
version (VarInt). -/
def ReadShareData (s : List Nat) : Except Err (ShareData × List Nat) :=
  match ReadChainHash s with
  | .error e => .error e
  | .ok (prev, s1) =>
    match ReadVarString s1 with
    | .error e => .error e
    | .ok (cb, s2) =>
      match readLEInt 4 s2 with
      | .error e => .error e
      | .ok (nonce, s3) =>
        match readExact 20 s3 with
        | .error e => .error e
        | .ok (pkh, s4) =>
          match readLEInt 1 s4 with
          | .error e => .error e
          | .ok (pkhv, s5) =>
            match readLEInt 8 s5 with
            | .error e => .error e
            | .ok (subsidy, s6) =>
              match readLEInt 2 s6 with
              | .error e => .error e
              | .ok (donation, s7) =>
                match readInt8 s7 with
                | .error e => .error e
                | .ok (stale, s8) =>
                  match ReadVarInt s8 with
                  | .error e => .error e
                  | .ok (dv, s9) =>
                    .ok ({ PreviousShareHash := prev, CoinBase := cb,
                           Nonce := nonce, PubKeyHash := pkh,
                           PubKeyHashVersion := pkhv, Subsidy := subsidy,
                           Donation := donation, StaleInfo := stale,
                           DesiredVersion := dv }, s9)

/-- `TransactionHashRef`: two VarInt fields, as decoded by
`ReadTransactionHashRef`. -/
structure TransactionHashRef where
  ShareCount : Nat
  TxCount : Nat
  deriving Repr, DecidableEq

/-- `ReadTransactionHashRef` from lines 383–395: two VarInts. -/
def ReadTransactionHashRef (s : List Nat) : Except Err (TransactionHashRef × List Nat) :=
  match ReadVarInt s with
  | .error e => .error e
  | .ok (sc, s1) =>
    match ReadVarInt s1 with
    | .error e => .error e
    | .ok (tc, s2) => .ok ({ ShareCount := sc, TxCount := tc }, s2)

/-- The element loop of `ReadTransactionHashRefList` (lines 372–379). -/
def readTransactionHashRefs : Nat → List Nat → Except Err (List TransactionHashRef × List Nat)
  | 0, s => .ok ([], s)
  | n + 1, s =>
    match ReadTransactionHashRef s with
    | .error e => .error e
    | .ok (h, s1) =>
      match readTransactionHashRefs n s1 with
      | .error e => .error e
      | .ok (hs, s2) => .ok (h :: hs, s2)

/-- `ReadTransactionHashRefList` from lines 364–381. -/
def ReadTransactionHashRefList (s : List Nat) :
    Except Err (List TransactionHashRef × List Nat) :=
  match ReadVarInt s with
  | .error e => .error e
  | .ok (count, s1) => readTransactionHashRefs count s1

/-- `HashLink`: 32 opaque state bytes plus a VarInt length. -/
structure HashLink where
  State : List Nat
  Length : Nat
  deriving Repr, DecidableEq

/-- The fixed-width state portion of `ReadHashLink` (lines 400–408): read
32 bytes; on a short stream either the passed-through read error or the
"Hashlink state not 32 bytes" check fires — both the truncated class. -/
def readHashLinkState (s : List Nat) : Except Err (List Nat × List Nat) :=
  readExact 32 s

/-- `ReadHashLink` from lines 397–412: the 32 state bytes, then the length
VarInt. -/
def ReadHashLink (s : List Nat) : Except Err (HashLink × List Nat) :=
  match readHashLinkState s with
  | .error e => .error e
  | .ok (st, s1) =>
    match ReadVarInt s1 with
    | .error e => .error e
    | .ok (len, s2) => .ok ({ State := st, Length := len }, s2)

/-- The absWork tail of `ReadShareInfo` (lines 463–471): 16 raw bytes
(count-checked) handed to `big.Int.SetBytes` — no zero stripping here. -/
def readAbsWork (s : List Nat) : Except Err (Nat × List Nat) :=
  match readExact 16 s with
  | .error e => .error e
  | .ok (b, rest) => .ok (fromBytesBE b, rest)

/-- `ShareInfo`.  Modelled from the spec: the struct declaration is outside
the provided source; per spec §3 MaxBits/Bits/Timestamp/AbsHeight are
uint32 and AbsWork a 128-bit unsigned integer.  The Go struct holds a
zero-valued `SegwitData` when the segwit branch is skipped; the model uses
`Option` with `none` for the never-assigned field. -/
structure ShareInfo where
  Data : ShareData
  Segwit : Option SegwitData
  NewTransactionHashes : List Hash
  TransactionHashRefs : List TransactionHashRef
  FarShareHash : Hash
  MaxBits : Nat
  Bits : Nat
  Timestamp : Nat
  AbsHeight : Nat
  AbsWork : Nat
  deriving Repr, DecidableEq

/-- `ReadShareInfo` from lines 414–473: ShareData; SegwitData only when the
caller-supplied `segwit` flag is set; new-transaction-hash list;
transaction-hash-ref list; farShareHash; four LE u32 fields; 16-byte
absWork. -/
def ReadShareInfo (s : List Nat) (segwit : Bool) : Except Err (ShareInfo × List Nat) :=
  match ReadShareData s with
  | .error e => .error e
  | .ok (sd, s1) =>
    match (if segwit then
             match ReadSegwitData s1 with
             | .error e => .error e
             | .ok (sw, s2) => .ok (some sw, s2)
           else .ok (none, s1) : Except Err (Option SegwitData × List Nat)) with
    | .error e => .error e
    | .ok (sw, s2) =>
      match ReadChainHashList s2 with
      | .error e => .error e
      | .ok (nth, s3) =>
        match ReadTransactionHashRefList s3 with
        | .error e => .error e
        | .ok (refs, s4) =>
          match ReadChainHash s4 with
          | .error e => .error e
          | .ok (fsh, s5) =>
            match readLEInt 4 s5 with
            | .error e => .error e
            | .ok (mb, s6) =>
              match readLEInt 4 s6 with
              | .error e => .error e
              | .ok (bits, s7) =>
                match readLEInt 4 s7 with
                | .error e => .error e
                | .ok (ts, s8) =>
                  match readLEInt 4 s8 with
                  | .error e => .error e
                  | .ok (ah, s9) =>
                    match readAbsWork s9 with
                    | .error e => .error e
                    | .ok (aw, s10) =>
                      .ok ({ Data := sd, Segwit := sw,
                             NewTransactionHashes := nth,
                             TransactionHashRefs := refs,
                             FarShareHash := fsh, MaxBits := mb,
                             Bits := bits, Timestamp := ts,
                             AbsHeight := ah, AbsWork := aw }, s10)

/-! ## Shared lemmas about the byte primitives -/

theorem length_toBytesLE (w v : Nat) : (toBytesLE w v).length = w := by
  induction w generalizing v with
  | zero => rfl
  | succ w ih => simp [toBytesLE, ih]

theorem fromBytesLE_toBytesLE (w v : Nat) :
    fromBytesLE (toBytesLE w v) = v % 256 ^ w := by
  induction w generalizing v with
  | zero => simp [toBytesLE, fromBytesLE, Nat.mod_one]
  | succ w ih =>
    simp only [toBytesLE, fromBytesLE, ih, pow_succ]
    rw [mul_comm (256 ^ w) 256, Nat.mod_mul]

theorem fromBytesLE_toBytesLE_of_lt {w v : Nat} (h : v < 256 ^ w) :
    fromBytesLE (toBytesLE w v) = v := by
  rw [fromBytesLE_toBytesLE, Nat.mod_eq_of_lt h]

theorem take_toBytesLE_append (w v : Nat) (rest : List Nat) :
    (toBytesLE w v ++ rest).take w = toBytesLE w v :=
  List.take_left' (length_toBytesLE w v)

theorem drop_toBytesLE_append (w v : Nat) (rest : List Nat) :
    (toBytesLE w v ++ rest).drop w = rest :=
  List.drop_left' (length_toBytesLE w v)

/-- Key VarInt inversion lemma: reading back a canonical encoding yields
the encoded value and leaves any trailing bytes untouched. -/
theorem ReadVarInt_WriteVarInt (v : Nat) (hv : v < 2 ^ 64) (rest : List Nat) :
    ReadVarInt (WriteVarInt v ++ rest) = .ok (v, rest) := by
  by_cases h1 : v < 0xfd
  · have hmod : v % 256 = v := Nat.mod_eq_of_lt (by omega)
    simp only [WriteVarInt, if_pos h1, hmod, List.cons_append, List.nil_append, ReadVarInt]
    rw [if_neg (by omega), if_neg (by omega), if_neg (by omega)]
  · by_cases h2 : v ≤ 0xffff
    · have hlt : v < 256 ^ 2 := by omega
      simp only [WriteVarInt, if_neg h1, if_pos h2, List.cons_append, ReadVarInt]
      rw [if_neg (by omega), if_neg (by omega), if_pos trivial,
        if_pos (show 2 ≤ (toBytesLE 2 v ++ rest).length by
          simp [length_toBytesLE]),
        take_toBytesLE_append, fromBytesLE_toBytesLE_of_lt hlt,
        if_neg (by omega), drop_toBytesLE_append]
    · by_cases h3 : v ≤ 0xffffffff
      · have hlt : v < 256 ^ 4 := by omega
        simp only [WriteVarInt, if_neg h1, if_neg h2, if_pos h3, List.cons_append, ReadVarInt]
        rw [if_neg (by omega), if_pos trivial,
          if_pos (show 4 ≤ (toBytesLE 4 v ++ rest).length by
            simp [length_toBytesLE]),
          take_toBytesLE_append, fromBytesLE_toBytesLE_of_lt hlt,
          if_neg (by omega), drop_toBytesLE_append]
      · have hlt : v < 256 ^ 8 := by
          have : (256 : Nat) ^ 8 = 2 ^ 64 := by norm_num
          omega
        simp only [WriteVarInt, if_neg h1, if_neg h2, if_neg h3, List.cons_append, ReadVarInt]
        rw [if_pos trivial,
          if_pos (show 8 ≤ (toBytesLE 8 v ++ rest).length by
            simp [length_toBytesLE]),
          take_toBytesLE_append, fromBytesLE_toBytesLE_of_lt hlt,
          if_neg (by omega), drop_toBytesLE_append]

theorem length_WriteVarInt (v : Nat) :
    (WriteVarInt v).length =
      if v < 0xfd then 1 else if v ≤ 0xffff then 3
      else if v ≤ 0xffffffff then 5 else 9 := by
  unfold WriteVarInt
  split
  · simp
  · split
    · simp [length_toBytesLE]
    · split <;> simp [length_toBytesLE]

theorem readExact_append {n : Nat} {b : List Nat} (rest : List Nat)
    (h : b.length = n) : readExact n (b ++ rest) = .ok (b, rest) := by
  rw [readExact, if_pos (by simp [h]), List.take_left' h, List.drop_left' h]

theorem readExact_short {n : Nat} {s : List Nat} (h : s.length < n) :
    readExact n s = .error .truncated := by
  rw [readExact, if_neg (by omega)]

theorem readLEInt_append {w : Nat} {b : List Nat} (rest : List Nat)
    (h : b.length = w) : readLEInt w (b ++ rest) = .ok (fromBytesLE b, rest) := by
  rw [readLEInt, if_pos (by simp [h]), List.take_left' h, List.drop_left' h]

theorem readLEInt_short {w : Nat} {s : List Nat} (h : s.length < w) :
    readLEInt w s = .error .truncated := by
  rw [readLEInt, if_neg (by omega)]

theorem ReadVarInt_small {d : Nat} (h : d < 0xfd) (x : List Nat) :
    ReadVarInt (d :: x) = .ok (d, x) := by
  simp only [ReadVarInt]
  rw [if_neg (by omega), if_neg (by omega), if_neg (by omega)]

theorem readExact_zero (s : List Nat) : readExact 0 s = .ok ([], s) := by
  simp [readExact]

theorem readLEInt_one (b : Nat) (x : List Nat) :
    readLEInt 1 (b :: x) = .ok (b, x) := by
  simp [readLEInt, fromBytesLE]

/-! ## Claims -/

/-- C1: for every `v` with `0 ≤ v ≤ 2^64 − 1`, `ReadVarInt` decodes the
bytes produced by `WriteVarInt v` back to `v`, and `WriteVarInt` emits the
minimal tier: 1 byte when `v < 0xfd`, 3 bytes when `0xfd ≤ v ≤ 0xffff`,
5 bytes when `0x10000 ≤ v ≤ 0xffffffff`, and 9 bytes otherwise. -/
theorem varint_roundtrip_minimal (v : Nat) (hv : v < 2 ^ 64) :
    ReadVarInt (WriteVarInt v) = .ok (v, []) ∧
    (WriteVarInt v).length =
      (if v < 0xfd then 1 else if v ≤ 0xffff then 3
       else if v ≤ 0xffffffff then 5 else 9) := by
  refine ⟨?_, length_WriteVarInt v⟩
  have h := ReadVarInt_WriteVarInt v hv []
  simpa using h

/-- Witness for C1 at the concrete value 0x10000. -/
theorem varint_roundtrip_minimal_witness :
    ReadVarInt (WriteVarInt 65536) = .ok (65536, []) ∧
    (WriteVarInt 65536).length = 5 := by
  have h := varint_roundtrip_minimal 65536 (by norm_num)
  simpa using h

/-- C2: every non-minimal VarInt encoding — discriminant 0xfd with a
little-endian u16 payload < 0xfd, 0xfe with a u32 payload < 0x10000, or
0xff with a u64 payload < 0x100000000 — makes `ReadVarInt` return a
non-canonical-encoding error rather than the decoded value. -/
theorem varint_noncanonical_rejected (p2 p4 p8 rest : List Nat)
    (h2 : p2.length = 2) (h4 : p4.length = 4) (h8 : p8.length = 8) :
    (fromBytesLE p2 < 0xfd →
      ReadVarInt (0xfd :: (p2 ++ rest)) = .error .nonCanonicalU16) ∧
    (fromBytesLE p4 < 0x10000 →
      ReadVarInt (0xfe :: (p4 ++ rest)) = .error .nonCanonicalU32) ∧
    (fromBytesLE p8 < 0x100000000 →
      ReadVarInt (0xff :: (p8 ++ rest)) = .error .nonCanonicalU64) := by
  refine ⟨fun hlt => ?_, fun hlt => ?_, fun hlt => ?_⟩
  · simp only [ReadVarInt]
    rw [if_neg (by omega), if_neg (by omega), if_pos trivial,
      if_pos (show 2 ≤ (p2 ++ rest).length by simp [h2]),
      List.take_left' h2, if_pos hlt]
  · simp only [ReadVarInt]
    rw [if_neg (by omega), if_pos trivial,
      if_pos (show 4 ≤ (p4 ++ rest).length by simp [h4]),
      List.take_left' h4, if_pos hlt]
  · simp only [ReadVarInt]
    rw [if_pos trivial, if_pos (show 8 ≤ (p8 ++ rest).length by simp [h8]),
      List.take_left' h8, if_pos hlt]

/-- Witness for C2 at discriminant 0xfd with payload 0x00fc and the
analogous payloads of the wider tiers. -/
theorem varint_noncanonical_rejected_witness :
    ReadVarInt [0xfd, 0xfc, 0x00] = .error .nonCanonicalU16 ∧
    ReadVarInt [0xfe, 0xff, 0xff, 0x00, 0x00] = .error .nonCanonicalU32 ∧
    ReadVarInt [0xff, 0xff, 0xff, 0xff, 0xff, 0x00, 0x00, 0x00, 0x00] =
      .error .nonCanonicalU64 := by
  have h := varint_noncanonical_rejected [0xfc, 0x00] [0xff, 0xff, 0x00, 0x00]
    [0xff, 0xff, 0xff, 0xff, 0x00, 0x00, 0x00, 0x00] [] rfl rfl rfl
  exact ⟨h.1 (by decide), h.2.1 (by decide), h.2.2 (by decide)⟩

/-- C4 (code-bug evidence): on a stream that ends before the VarInt payload
is complete, the 0xfd and 0xfe tiers report a non-canonical-encoding error
instead of a truncation error, because the source never assigns the error
returned by the payload `binary.Read` and the payload variable keeps its
zero value; only the 0xff tier (which does capture the error) and the
missing discriminant report truncation. -/
theorem varint_truncation_misreported :
    ReadVarInt [0xfd] = .error .nonCanonicalU16 ∧
    ReadVarInt [0xfd, 0x07] = .error .nonCanonicalU16 ∧
    ReadVarInt [0xfe, 0x01, 0x02, 0x03] = .error .nonCanonicalU32 ∧
    ReadVarInt [0xff, 0x01] = .error .truncated ∧
    ReadVarInt [] = .error .truncated :=
  ⟨rfl, rfl, rfl, rfl, rfl⟩

/-- C5 (code-bug evidence): `ReadBigInt256` on 32 zero bytes runs the
zero-stripping loop off the end of the slice and panics (index out of
range) instead of returning the value 0; any 32-byte input with a nonzero
byte decodes normally. -/
theorem bigint256_allzero_panics :
    ReadBigInt256 (List.replicate 32 0) = .error .panicked ∧
    ReadBigInt256 (List.replicate 31 0 ++ [1]) = .ok (1, []) ∧
    ReadBigInt256 (0x02 :: List.replicate 31 0xff) =
      .ok (fromBytesBE (0x02 :: List.replicate 31 0xff), []) :=
  ⟨rfl, rfl, rfl⟩

/-- C8: encoding the value 1 with `WriteBigInt256` writes exactly 32
bytes — 31 zero bytes then 0x01 — and `ReadBigInt256` decodes those 32
bytes back to 1. -/
theorem bigint256_padding_one :
    WriteBigInt256 1 = List.replicate 31 0 ++ [1] ∧
    (WriteBigInt256 1).length = 32 ∧
    ReadBigInt256 (List.replicate 31 0 ++ [1]) = .ok (1, []) :=
  ⟨rfl, rfl, rfl⟩

/-- C9: `WriteChainHash` on an absent (nil) hash reference writes exactly
the 32 zero bytes of the null-hash sentinel — the field is a fixed-width
32-byte write, never omitted or shortened. -/
theorem chainhash_nil_writes_null_sentinel :
    WriteChainHash none = List.replicate 32 0 ∧
    (WriteChainHash none).length = 32 :=
  ⟨rfl, rfl⟩

/-- Element-loop inversion for chain-hash lists: reading `l.length` hashes
from the concatenation of their 32-byte images recovers `l` and leaves the
trailing bytes. -/
theorem readChainHashes_flatten (l : List Hash) (rest : List Nat)
    (hl : ∀ h ∈ l, h.length = 32) :
    readChainHashes l.length (l.flatten ++ rest) = .ok (l, rest) := by
  induction l with
  | nil => simp [readChainHashes]
  | cons h t ih =>
    have hh : h.length = 32 := hl h (by simp)
    simp only [List.length_cons, List.flatten_cons, List.append_assoc,
      readChainHashes, ReadChainHash]
    rw [readExact_append _ hh]
    dsimp only
    rw [ih (fun x hx => hl x (by simp [hx]))]

/-- C7: decoding with `ReadChainHashList` the bytes produced by
`WriteChainHashList` reproduces the original sequence exactly and in
order, for lists of any length below the VarInt bound; the empty list
encodes to exactly the single byte VarInt(0). -/
theorem chainhash_list_roundtrip (l : List Hash)
    (hl : ∀ h ∈ l, h.length = 32) (hlen : l.length < 2 ^ 64) :
    ReadChainHashList (WriteChainHashList (l.map some)) = .ok (l, []) ∧
    WriteChainHashList [] = [0] := by
  refine ⟨?_, rfl⟩
  have hm : ∀ t : List Hash, (t.map some).map WriteChainHash = t := by
    intro t
    induction t with
    | nil => rfl
    | cons h t ih => simp only [List.map_cons, WriteChainHash, ih]
  have hm := hm l
  unfold ReadChainHashList WriteChainHashList
  rw [List.length_map, hm, ReadVarInt_WriteVarInt l.length hlen]
  have h := readChainHashes_flatten l [] hl
  rw [List.append_nil] at h
  exact h

/-- Witness for C7 with a two-element list of distinct hashes. -/
theorem chainhash_list_roundtrip_witness :
    ReadChainHashList
        (WriteChainHashList ([List.replicate 32 1, List.replicate 32 2].map some)) =
      .ok ([List.replicate 32 1, List.replicate 32 2], []) ∧
    WriteChainHashList [] = [0] :=
  chainhash_list_roundtrip [List.replicate 32 1, List.replicate 32 2]
    (by decide) (by decide)

/-- C6: fixed-width field laws.  For each fixed-width field — 32-byte
ChainHash, 32-byte HashLink state, the 20-byte pubKeyHash inside
`ReadShareData`, the 16-byte absWork tail of `ReadShareInfo`, and the
16-byte IP address — a stream with fewer than the required bytes fails
with the truncation error, while a stream with exactly the required bytes
plus arbitrary trailing bytes succeeds, consumes exactly the required
count and leaves the trailing bytes unread.  The pubKeyHash conjuncts fix
the preceding ShareData fields (zero hash, empty coinbase, zero nonce) and
the following ones (all zero) so that the stream position of the 20-byte
field is pinned down. -/
theorem fixed_width_laws (s b32 b20 b16 rest : List Nat) :
    (s.length < 32 → ReadChainHash s = .error .truncated) ∧
    (b32.length = 32 → ReadChainHash (b32 ++ rest) = .ok (b32, rest)) ∧
    (s.length < 32 → readHashLinkState s = .error .truncated) ∧
    (b32.length = 32 → readHashLinkState (b32 ++ rest) = .ok (b32, rest)) ∧
    (s.length < 20 →
      ReadShareData (List.replicate 32 0 ++ [0] ++ List.replicate 4 0 ++ s) =
        .error .truncated) ∧
    (b20.length = 20 →
      ReadShareData (List.replicate 32 0 ++ [0] ++ List.replicate 4 0 ++ b20 ++
          [0] ++ List.replicate 8 0 ++ List.replicate 2 0 ++ [0] ++ [0] ++ rest) =
        .ok ({ PreviousShareHash := List.replicate 32 0, CoinBase := [],
               Nonce := 0, PubKeyHash := b20, PubKeyHashVersion := 0,
               Subsidy := 0, Donation := 0, StaleInfo := 0,
               DesiredVersion := 0 }, rest)) ∧
    (s.length < 16 → readAbsWork s = .error .truncated) ∧
    (b16.length = 16 → readAbsWork (b16 ++ rest) = .ok (fromBytesBE b16, rest)) ∧
    (s.length < 16 → ReadIPAddr s = .error .truncated) ∧
    (b16.length = 16 → ReadIPAddr (b16 ++ rest) = .ok (b16, rest)) := by
  refine ⟨fun h => readExact_short h, fun h => readExact_append rest h,
    fun h => readExact_short h, fun h => readExact_append rest h,
    fun h => ?_, fun h => ?_, fun h => ?_, fun h => ?_,
    fun h => readExact_short h, fun h => readExact_append rest h⟩
  · simp only [ReadShareData, ReadChainHash, List.append_assoc]
    rw [readExact_append _ (by simp : (List.replicate 32 0).length = 32)]
    dsimp only
    simp only [ReadVarString, List.singleton_append]
    rw [ReadVarInt_small (by norm_num)]
    dsimp only
    rw [readExact_zero]
    dsimp only
    rw [readLEInt_append _ (by simp : (List.replicate 4 0).length = 4)]
    dsimp only
    rw [readExact_short h]
  · simp only [ReadShareData, ReadChainHash, List.append_assoc]
    rw [readExact_append _ (by simp : (List.replicate 32 0).length = 32)]
    dsimp only
    simp only [ReadVarString, List.singleton_append]
    rw [ReadVarInt_small (by norm_num)]
    dsimp only
    rw [readExact_zero]
    dsimp only
    rw [readLEInt_append _ (by simp : (List.replicate 4 0).length = 4)]
    dsimp only
    rw [readExact_append _ h]
    dsimp only
    rw [readLEInt_one]
    dsimp only
    rw [readLEInt_append _ (by simp : (List.replicate 8 0).length = 8)]
    dsimp only
    rw [readLEInt_append _ (by simp : (List.replicate 2 0).length = 2)]
    dsimp only
    simp only [List.singleton_append, readInt8]
    rw [ReadVarInt_small (by norm_num)]
    rfl
  · simp only [readAbsWork, readExact_short h]
  · simp only [readAbsWork, readExact_append rest h]

/-- Witness for C6 at concrete short and exact-plus-trailing streams. -/
theorem fixed_width_laws_witness :
    ReadChainHash [1, 2, 3] = .error .truncated ∧
    ReadChainHash (List.replicate 32 5 ++ [9]) = .ok (List.replicate 32 5, [9]) ∧
    readHashLinkState [1, 2, 3] = .error .truncated ∧
    readHashLinkState (List.replicate 32 5 ++ [9]) = .ok (List.replicate 32 5, [9]) ∧
    ReadShareData (List.replicate 32 0 ++ [0] ++ List.replicate 4 0 ++ [1, 2, 3]) =
      .error .truncated ∧
    ReadShareData (List.replicate 32 0 ++ [0] ++ List.replicate 4 0 ++
        List.replicate 20 6 ++ [0] ++ List.replicate 8 0 ++ List.replicate 2 0 ++
        [0] ++ [0] ++ [9]) =
      .ok ({ PreviousShareHash := List.replicate 32 0, CoinBase := [], Nonce := 0,
             PubKeyHash := List.replicate 20 6, PubKeyHashVersion := 0, Subsidy := 0,
             Donation := 0, StaleInfo := 0, DesiredVersion := 0 }, [9]) ∧
    readAbsWork [1, 2, 3] = .error .truncated ∧
    readAbsWork (List.replicate 16 7 ++ [9]) =
      .ok (fromBytesBE (List.replicate 16 7), [9]) ∧
    ReadIPAddr [1, 2, 3] = .error .truncated ∧
    ReadIPAddr (List.replicate 16 7 ++ [9]) = .ok (List.replicate 16 7, [9]) := by
  have h := fixed_width_laws [1, 2, 3] (List.replicate 32 5) (List.replicate 20 6)
    (List.replicate 16 7) [9]
  exact ⟨h.1 (by decide), h.2.1 (by decide), h.2.2.1 (by decide),
    h.2.2.2.1 (by decide), h.2.2.2.2.1 (by decide), h.2.2.2.2.2.1 (by decide),
    h.2.2.2.2.2.2.1 (by decide), h.2.2.2.2.2.2.2.1 (by decide),
    h.2.2.2.2.2.2.2.2.1 (by decide), h.2.2.2.2.2.2.2.2.2 (by decide)⟩

/-- Spec-side definition for the big-integer width law: the fixed-width
zero-padded big-endian representation of `v` (modulo `256^w`), written in
the spec's words — most-significant byte first, zero-extended to exactly
`w` bytes. -/
def beBytesFixed : Nat → Nat → List Nat
  | 0, _ => []
  | w + 1, v => beBytesFixed w (v / 256) ++ [v % 256]

theorem length_beBytesFixed (w v : Nat) : (beBytesFixed w v).length = w := by
  induction w generalizing v with
  | zero => rfl
  | succ w ih => simp [beBytesFixed, ih]

theorem beBytesFixed_mod (w v : Nat) :
    beBytesFixed w (v % 256 ^ w) = beBytesFixed w v := by
  induction w generalizing v with
  | zero => rfl
  | succ w ih =>
    simp only [beBytesFixed]
    have hp : (256 : Nat) ^ (w + 1) = 256 * 256 ^ w := by ring
    have h1 : v % 256 ^ (w + 1) % 256 = v % 256 := by
      apply Nat.mod_mod_of_dvd
      exact ⟨256 ^ w, hp⟩
    have h2 : v % 256 ^ (w + 1) / 256 = v / 256 % 256 ^ w := by
      rw [hp]
      exact Nat.mod_mul_right_div_self v 256 (256 ^ w)
    rw [h1, h2, ih]

theorem beBytesFixed_split (a b v : Nat) :
    beBytesFixed (a + b) v = beBytesFixed a (v / 256 ^ b) ++ beBytesFixed b v := by
  induction b generalizing v with
  | zero => simp [beBytesFixed]
  | succ b ih =>
    show beBytesFixed ((a + b) + 1) v = _
    simp only [beBytesFixed]
    rw [ih (v / 256), List.append_assoc, Nat.div_div_eq_div_mul]
    have hp : (256 : Nat) * 256 ^ b = 256 ^ (b + 1) := by ring
    rw [hp]

theorem fromBytesBE_foldl_init (b : List Nat) : ∀ x : Nat,
    b.foldl (fun a c => a * 256 + c) x = x * 256 ^ b.length + fromBytesBE b := by
  induction b with
  | nil => intro x; simp [fromBytesBE]
  | cons c t ih =>
    intro x
    have hc : fromBytesBE (c :: t) = t.foldl (fun a c => a * 256 + c) c := by
      simp [fromBytesBE]
    simp only [List.foldl_cons, List.length_cons, hc]
    rw [ih (x * 256 + c), ih c]
    ring

theorem fromBytesBE_append (a b : List Nat) :
    fromBytesBE (a ++ b) = fromBytesBE a * 256 ^ b.length + fromBytesBE b := by
  rw [fromBytesBE, List.foldl_append, ← fromBytesBE, fromBytesBE_foldl_init]

theorem fromBytesBE_beBytesFixed (w v : Nat) :
    fromBytesBE (beBytesFixed w v) = v % 256 ^ w := by
  induction w generalizing v with
  | zero => simp [beBytesFixed, fromBytesBE, Nat.mod_one]
  | succ w ih =>
    simp only [beBytesFixed]
    rw [fromBytesBE_append, ih]
    have hone : fromBytesBE [v % 256] = v % 256 := by simp [fromBytesBE]
    have hlen : ([v % 256] : List Nat).length = 1 := rfl
    rw [hone, hlen]
    have hp : (256 : Nat) ^ (w + 1) = 256 * 256 ^ w := by ring
    rw [hp, Nat.mod_mul]
    ring

theorem lt_pow_length_toBytesBE (v : Nat) : v < 256 ^ (toBytesBE v).length := by
  induction v using Nat.strong_induction_on with
  | _ v ih =>
    rw [toBytesBE_eq]
    by_cases hv : v = 0
    · subst hv; simp
    · rw [if_neg hv]
      simp only [List.length_append, List.length_cons, List.length_nil]
      have hdiv : v / 256 < v := Nat.div_lt_self (Nat.pos_of_ne_zero hv) (by norm_num)
      have h' := ih (v / 256) hdiv
      have hp : (256 : Nat) ^ ((toBytesBE (v / 256)).length + (0 + 1)) =
          256 * 256 ^ (toBytesBE (v / 256)).length := by ring
      omega

theorem beBytesFixed_zero_val (w : Nat) :
    beBytesFixed w 0 = List.replicate w 0 := by
  induction w with
  | zero => rfl
  | succ w ih => simp [beBytesFixed, ih, List.replicate_succ']

theorem pad_toBytesBE (w : Nat) : ∀ v : Nat, v < 256 ^ w →
    List.replicate (w - (toBytesBE v).length) 0 ++ toBytesBE v = beBytesFixed w v := by
  induction w with
  | zero =>
    intro v h
    have hv : v = 0 := by simpa using h
    subst hv
    rfl
  | succ w ih =>
    intro v h
    by_cases hv : v = 0
    · subst hv
      have hz : toBytesBE 0 = [] := rfl
      rw [hz]
      simp [beBytesFixed_zero_val]
    · rw [toBytesBE_eq, if_neg hv]
      simp only [List.length_append, List.length_cons, List.length_nil]
      have hd : v / 256 < 256 ^ w := by
        apply Nat.div_lt_of_lt_mul
        have hp : (256 : Nat) ^ (w + 1) = 256 * 256 ^ w := by ring
        omega
      have ihd := ih (v / 256) hd
      simp only [beBytesFixed]
      rw [← ihd, List.append_assoc]
      have hsub : w + 1 - ((toBytesBE (v / 256)).length + (0 + 1)) =
          w - (toBytesBE (v / 256)).length := by omega
      rw [hsub]

/-- The Go write expression of `WriteBigInt256` — the last 32 bytes of
32 zero bytes followed by the minimal big-endian bytes of the value —
coincides with the fixed-width 32-byte big-endian representation. -/
theorem WriteBigInt256_eq_beBytesFixed (v : Nat) :
    WriteBigInt256 v = beBytesFixed 32 v := by
  show (List.replicate 32 0 ++ toBytesBE v).drop
      ((List.replicate 32 0 ++ toBytesBE v).length - 32) = beBytesFixed 32 v
  have hv32 : v < 256 ^ ((toBytesBE v).length + 32) :=
    lt_of_lt_of_le (lt_pow_length_toBytesBE v)
      (Nat.pow_le_pow_right (by norm_num) (by omega))
  have hpad := pad_toBytesBE ((toBytesBE v).length + 32) v hv32
  have h32 : (toBytesBE v).length + 32 - (toBytesBE v).length = 32 := by omega
  rw [h32] at hpad
  rw [hpad, length_beBytesFixed]
  have hL : (toBytesBE v).length + 32 - 32 = (toBytesBE v).length := by omega
  rw [hL, beBytesFixed_split ((toBytesBE v).length) 32 v]
  exact List.drop_left' (length_beBytesFixed (toBytesBE v).length (v / 256 ^ 32))

/-- C10: for every non-negative integer `v`, including `v ≥ 2^256`,
`WriteBigInt256` writes exactly 32 bytes — the big-endian zero-padded
representation of `v mod 2^256` — so the most significant bytes of an
over-wide value are silently dropped, not reported as an error. -/
theorem bigint256_write_width (v : Nat) :
    (WriteBigInt256 v).length = 32 ∧
    WriteBigInt256 v = beBytesFixed 32 (v % 2 ^ 256) ∧
    fromBytesBE (WriteBigInt256 v) = v % 2 ^ 256 := by
  have h256 : (256 : Nat) ^ 32 = 2 ^ 256 := by norm_num
  refine ⟨?_, ?_, ?_⟩
  · rw [WriteBigInt256_eq_beBytesFixed, length_beBytesFixed]
  · rw [WriteBigInt256_eq_beBytesFixed, ← h256, beBytesFixed_mod]
  · rw [WriteBigInt256_eq_beBytesFixed, fromBytesBE_beBytesFixed, h256]

theorem readLEInt_toBytesLE {w v : Nat} (rest : List Nat) (h : v < 256 ^ w) :
    readLEInt w (toBytesLE w v ++ rest) = .ok (v, rest) := by
  rw [readLEInt_append _ (length_toBytesLE w v), fromBytesLE_toBytesLE_of_lt h]

/-- C3: `ReadShareInfo` decodes exactly, in order: one ShareData; then one
SegwitData if and only if the caller-supplied segwit flag is true (no byte
of the stream marks its presence); then a ChainHash list, a
TransactionHashRef list, one ChainHash (farShareHash), the four
little-endian uint32 fields maxBits, bits, timestamp, absHeight, and
absWork as a 16-byte big-endian unsigned integer; and the first failing
field aborts the whole decode with that error — shown for every stage,
including each of the four trailing little-endian fields and absWork,
under either value of the segwit flag wherever the stage exists. -/
theorem shareinfo_decode_order (segwit : Bool)
    (s s1 s2 s3 s4 s5 rest : List Nat)
    (sd : ShareData) (sg : SegwitData) (nth : List Hash)
    (refs : List TransactionHashRef) (fsh : Hash)
    (mb bits ts ah : Nat) (aw : List Nat)
    (h1 : ReadShareData s = .ok (sd, s1))
    (h2 : if segwit then ReadSegwitData s1 = .ok (sg, s2) else s2 = s1)
    (h3 : ReadChainHashList s2 = .ok (nth, s3))
    (h4 : ReadTransactionHashRefList s3 = .ok (refs, s4))
    (h5 : ReadChainHash s4 = .ok (fsh, s5))
    (h6 : s5 = toBytesLE 4 mb ++ (toBytesLE 4 bits ++ (toBytesLE 4 ts ++
            (toBytesLE 4 ah ++ (aw ++ rest)))))
    (haw : aw.length = 16)
    (hmb : mb < 2 ^ 32) (hbits : bits < 2 ^ 32) (hts : ts < 2 ^ 32)
    (hah : ah < 2 ^ 32) :
    ReadShareInfo s segwit =
      .ok ({ Data := sd, Segwit := if segwit then some sg else none,
             NewTransactionHashes := nth, TransactionHashRefs := refs,
             FarShareHash := fsh, MaxBits := mb, Bits := bits,
             Timestamp := ts, AbsHeight := ah,
             AbsWork := fromBytesBE aw }, rest) ∧
    (∀ sw t e, ReadShareData t = .error e → ReadShareInfo t sw = .error e) ∧
    (∀ t t1 sd' e, ReadShareData t = .ok (sd', t1) →
      ReadSegwitData t1 = .error e → ReadShareInfo t true = .error e) ∧
    (∀ sw t t1 t2 sd' sg' e, ReadShareData t = .ok (sd', t1) →
      (if sw then ReadSegwitData t1 = .ok (sg', t2) else t2 = t1) →
      ReadChainHashList t2 = .error e → ReadShareInfo t sw = .error e) ∧
    (∀ sw t t1 t2 t3 sd' sg' nth' e, ReadShareData t = .ok (sd', t1) →
      (if sw then ReadSegwitData t1 = .ok (sg', t2) else t2 = t1) →
      ReadChainHashList t2 = .ok (nth', t3) →
      ReadTransactionHashRefList t3 = .error e → ReadShareInfo t sw = .error e) ∧
    (∀ sw t t1 t2 t3 t4 sd' sg' nth' refs' e, ReadShareData t = .ok (sd', t1) →
      (if sw then ReadSegwitData t1 = .ok (sg', t2) else t2 = t1) →
      ReadChainHashList t2 = .ok (nth', t3) →
      ReadTransactionHashRefList t3 = .ok (refs', t4) →
      ReadChainHash t4 = .error e → ReadShareInfo t sw = .error e) ∧
    (∀ sw t t1 t2 t3 t4 t5 sd' sg' nth' refs' fsh' e,
      ReadShareData t = .ok (sd', t1) →
      (if sw then ReadSegwitData t1 = .ok (sg', t2) else t2 = t1) →
      ReadChainHashList t2 = .ok (nth', t3) →
      ReadTransactionHashRefList t3 = .ok (refs', t4) →
      ReadChainHash t4 = .ok (fsh', t5) →
      readLEInt 4 t5 = .error e → ReadShareInfo t sw = .error e) ∧
    (∀ sw t t1 t2 t3 t4 t5 t6 sd' sg' nth' refs' fsh' mb' e,
      ReadShareData t = .ok (sd', t1) →
      (if sw then ReadSegwitData t1 = .ok (sg', t2) else t2 = t1) →
      ReadChainHashList t2 = .ok (nth', t3) →
      ReadTransactionHashRefList t3 = .ok (refs', t4) →
      ReadChainHash t4 = .ok (fsh', t5) →
      readLEInt 4 t5 = .ok (mb', t6) →
      readLEInt 4 t6 = .error e → ReadShareInfo t sw = .error e) ∧
    (∀ sw t t1 t2 t3 t4 t5 t6 t7 sd' sg' nth' refs' fsh' mb' bits' e,
      ReadShareData t = .ok (sd', t1) →
      (if sw then ReadSegwitData t1 = .ok (sg', t2) else t2 = t1) →
      ReadChainHashList t2 = .ok (nth', t3) →
      ReadTransactionHashRefList t3 = .ok (refs', t4) →
      ReadChainHash t4 = .ok (fsh', t5) →
      readLEInt 4 t5 = .ok (mb', t6) →
      readLEInt 4 t6 = .ok (bits', t7) →
      readLEInt 4 t7 = .error e → ReadShareInfo t sw = .error e) ∧
    (∀ sw t t1 t2 t3 t4 t5 t6 t7 t8 sd' sg' nth' refs' fsh' mb' bits' ts' e,
      ReadShareData t = .ok (sd', t1) →
      (if sw then ReadSegwitData t1 = .ok (sg', t2) else t2 = t1) →
      ReadChainHashList t2 = .ok (nth', t3) →
      ReadTransactionHashRefList t3 = .ok (refs', t4) →
      ReadChainHash t4 = .ok (fsh', t5) →
      readLEInt 4 t5 = .ok (mb', t6) →
      readLEInt 4 t6 = .ok (bits', t7) →
      readLEInt 4 t7 = .ok (ts', t8) →
      readLEInt 4 t8 = .error e → ReadShareInfo t sw = .error e) ∧
    (∀ sw t t1 t2 t3 t4 t5 t6 t7 t8 t9 sd' sg' nth' refs' fsh' mb' bits' ts' ah' e,
      ReadShareData t = .ok (sd', t1) →
      (if sw then ReadSegwitData t1 = .ok (sg', t2) else t2 = t1) →
      ReadChainHashList t2 = .ok (nth', t3) →
      ReadTransactionHashRefList t3 = .ok (refs', t4) →
      ReadChainHash t4 = .ok (fsh', t5) →
      readLEInt 4 t5 = .ok (mb', t6) →
      readLEInt 4 t6 = .ok (bits', t7) →
      readLEInt 4 t7 = .ok (ts', t8) →
      readLEInt 4 t8 = .ok (ah', t9) →
      readAbsWork t9 = .error e → ReadShareInfo t sw = .error e) := by
  have hmb' : mb < 256 ^ 4 := by norm_num at hmb ⊢; omega
  have hbits' : bits < 256 ^ 4 := by norm_num at hbits ⊢; omega
  have hts' : ts < 256 ^ 4 := by norm_num at hts ⊢; omega
  have hah' : ah < 256 ^ 4 := by norm_num at hah ⊢; omega
  subst h6
  refine ⟨?_, ?_, ?_, ?_, ?_, ?_, ?_, ?_, ?_, ?_, ?_⟩
  · cases segwit with
    | false =>
      simp at h2
      subst h2
      simp only [ReadShareInfo, h1, h3, h4, h5, readAbsWork,
        readLEInt_toBytesLE _ hmb', readLEInt_toBytesLE _ hbits',
        readLEInt_toBytesLE _ hts', readLEInt_toBytesLE _ hah',
        readExact_append rest haw, Bool.false_eq_true, if_false]
    | true =>
      simp at h2
      simp only [ReadShareInfo, h1, h2, h3, h4, h5, readAbsWork,
        readLEInt_toBytesLE _ hmb', readLEInt_toBytesLE _ hbits',
        readLEInt_toBytesLE _ hts', readLEInt_toBytesLE _ hah',
        readExact_append rest haw, if_true]
  · intro sw t e he
    simp only [ReadShareInfo, he]
  · intro t t1 sd' e ha hb
    simp only [ReadShareInfo, ha, hb, if_true]
  · intro sw t t1 t2 sd' sg' e ha hb hc
    cases sw with
    | false =>
      simp at hb
      subst hb
      simp only [ReadShareInfo, ha, hc, Bool.false_eq_true, if_false]
    | true =>
      simp at hb
      simp only [ReadShareInfo, ha, hb, hc, if_true]
  · intro sw t t1 t2 t3 sd' sg' nth' e ha hb hc hd
    cases sw with
    | false =>
      simp at hb
      subst hb
      simp only [ReadShareInfo, ha, hc, hd, Bool.false_eq_true, if_false]
    | true =>
      simp at hb
      simp only [ReadShareInfo, ha, hb, hc, hd, if_true]
  · intro sw t t1 t2 t3 t4 sd' sg' nth' refs' e ha hb hc hd he
    cases sw with
    | false =>
      simp at hb
      subst hb
      simp only [ReadShareInfo, ha, hc, hd, he, Bool.false_eq_true, if_false]
    | true =>
      simp at hb
      simp only [ReadShareInfo, ha, hb, hc, hd, he, if_true]
  · intro sw t t1 t2 t3 t4 t5 sd' sg' nth' refs' fsh' e ha hb hc hd he hf
    cases sw with
    | false =>
      simp at hb
      subst hb
      simp only [ReadShareInfo, ha, hc, hd, he, hf, Bool.false_eq_true, if_false]
    | true =>
      simp at hb
      simp only [ReadShareInfo, ha, hb, hc, hd, he, hf, if_true]
  · intro sw t t1 t2 t3 t4 t5 t6 sd' sg' nth' refs' fsh' mb' e ha hb hc hd he hf hg
    cases sw with
    | false =>
      simp at hb
      subst hb
      simp only [ReadShareInfo, ha, hc, hd, he, hf, hg, Bool.false_eq_true, if_false]
    | true =>
      simp at hb
      simp only [ReadShareInfo, ha, hb, hc, hd, he, hf, hg, if_true]
  · intro sw t t1 t2 t3 t4 t5 t6 t7 sd' sg' nth' refs' fsh' mb' bits' e
      ha hb hc hd he hf hg hi
    cases sw with
    | false =>
      simp at hb
      subst hb
      simp only [ReadShareInfo, ha, hc, hd, he, hf, hg, hi,
        Bool.false_eq_true, if_false]
    | true =>
      simp at hb
      simp only [ReadShareInfo, ha, hb, hc, hd, he, hf, hg, hi, if_true]
  · intro sw t t1 t2 t3 t4 t5 t6 t7 t8 sd' sg' nth' refs' fsh' mb' bits' ts' e
      ha hb hc hd he hf hg hi hj
    cases sw with
    | false =>
      simp at hb
      subst hb
      simp only [ReadShareInfo, ha, hc, hd, he, hf, hg, hi, hj,
        Bool.false_eq_true, if_false]
    | true =>
      simp at hb
      simp only [ReadShareInfo, ha, hb, hc, hd, he, hf, hg, hi, hj, if_true]
  · intro sw t t1 t2 t3 t4 t5 t6 t7 t8 t9 sd' sg' nth' refs' fsh' mb' bits' ts' ah' e
      ha hb hc hd he hf hg hi hj hk
    cases sw with
    | false =>
      simp at hb
      subst hb
      simp only [ReadShareInfo, ha, hc, hd, he, hf, hg, hi, hj, hk,
        Bool.false_eq_true, if_false]
    | true =>
      simp at hb
      simp only [ReadShareInfo, ha, hb, hc, hd, he, hf, hg, hi, hj, hk, if_true]

set_option maxRecDepth 20000 in
/-- Witness for C3: a full all-zero ShareInfo stream decoded with the
segwit flag off; an aborted decode whose first field already fails; and an
aborted decode whose stream runs out inside the trailing absWork field. -/
theorem shareinfo_decode_order_witness :
    ReadShareInfo (List.replicate 32 0 ++ [0] ++ List.replicate 4 0 ++
        List.replicate 20 0 ++ [0] ++ List.replicate 8 0 ++ List.replicate 2 0 ++
        [0] ++ [0] ++ [0] ++ [0] ++ List.replicate 32 0 ++ List.replicate 16 0 ++
        List.replicate 16 0) false =
      .ok ({ Data := { PreviousShareHash := List.replicate 32 0, CoinBase := [],
                       Nonce := 0, PubKeyHash := List.replicate 20 0,
                       PubKeyHashVersion := 0, Subsidy := 0, Donation := 0,
                       StaleInfo := 0, DesiredVersion := 0 },
             Segwit := none, NewTransactionHashes := [],
             TransactionHashRefs := [], FarShareHash := List.replicate 32 0,
             MaxBits := 0, Bits := 0, Timestamp := 0, AbsHeight := 0,
             AbsWork := 0 }, []) ∧
    ReadShareInfo [] false = .error .truncated ∧
    ReadShareInfo (List.replicate 32 0 ++ [0] ++ List.replicate 4 0 ++
        List.replicate 20 0 ++ [0] ++ List.replicate 8 0 ++ List.replicate 2 0 ++
        [0] ++ [0] ++ [0] ++ [0] ++ List.replicate 32 0 ++ List.replicate 16 0 ++
        [1, 2, 3]) false = .error .truncated := by
  have h := shareinfo_decode_order false
    (List.replicate 32 0 ++ [0] ++ List.replicate 4 0 ++
      List.replicate 20 0 ++ [0] ++ List.replicate 8 0 ++ List.replicate 2 0 ++
      [0] ++ [0] ++ [0] ++ [0] ++ List.replicate 32 0 ++ List.replicate 16 0 ++
      List.replicate 16 0)
    ([0] ++ [0] ++ List.replicate 32 0 ++ List.replicate 16 0 ++
      List.replicate 16 0)
    ([0] ++ [0] ++ List.replicate 32 0 ++ List.replicate 16 0 ++
      List.replicate 16 0)
    ([0] ++ List.replicate 32 0 ++ List.replicate 16 0 ++ List.replicate 16 0)
    (List.replicate 32 0 ++ List.replicate 16 0 ++ List.replicate 16 0)
    (List.replicate 16 0 ++ List.replicate 16 0) []
    { PreviousShareHash := List.replicate 32 0, CoinBase := [], Nonce := 0,
      PubKeyHash := List.replicate 20 0, PubKeyHashVersion := 0, Subsidy := 0,
      Donation := 0, StaleInfo := 0, DesiredVersion := 0 }
    { TXIDMerkleLink := [], WTXIDMerkleRoot := List.replicate 32 0 }
    [] [] (List.replicate 32 0) 0 0 0 0 (List.replicate 16 0)
    (by rfl) (by simp) (by rfl) (by rfl) (by rfl) (by rfl) (by rfl)
    (by norm_num) (by norm_num) (by norm_num) (by norm_num)
  refine ⟨h.1, h.2.1 false [] .truncated (by rfl), ?_⟩
  exact h.2.2.2.2.2.2.2.2.2.2 false
    (List.replicate 32 0 ++ [0] ++ List.replicate 4 0 ++
      List.replicate 20 0 ++ [0] ++ List.replicate 8 0 ++ List.replicate 2 0 ++
      [0] ++ [0] ++ [0] ++ [0] ++ List.replicate 32 0 ++ List.replicate 16 0 ++
      [1, 2, 3])
    ([0] ++ [0] ++ List.replicate 32 0 ++ List.replicate 16 0 ++ [1, 2, 3])
    ([0] ++ [0] ++ List.replicate 32 0 ++ List.replicate 16 0 ++ [1, 2, 3])
    ([0] ++ List.replicate 32 0 ++ List.replicate 16 0 ++ [1, 2, 3])
    (List.replicate 32 0 ++ List.replicate 16 0 ++ [1, 2, 3])
    (List.replicate 16 0 ++ [1, 2, 3])
    (List.replicate 12 0 ++ [1, 2, 3])
    (List.replicate 8 0 ++ [1, 2, 3])
    (List.replicate 4 0 ++ [1, 2, 3])
    ([1, 2, 3])
    { PreviousShareHash := List.replicate 32 0, CoinBase := [], Nonce := 0,
      PubKeyHash := List.replicate 20 0, PubKeyHashVersion := 0, Subsidy := 0,
      Donation := 0, StaleInfo := 0, DesiredVersion := 0 }
    { TXIDMerkleLink := [], WTXIDMerkleRoot := List.replicate 32 0 }
    [] [] (List.replicate 32 0) 0 0 0 0 .truncated
    (by rfl) (by simp) (by rfl) (by rfl) (by rfl) (by rfl) (by rfl) (by rfl)
    (by rfl) (by rfl)

end P2PoolWire
